import Mathlib

/-!
# Verification of the synthetic-data-generator core

Shallow embedding of the data-generation core of the repository
(`syntetic_data_create/`): the field-value generators, the uniqueness
registry, the schema translator, the relational store step, the SQL
export value formatter and the pipeline orchestrator, together with
proofs of the behavioural properties stated in the specification.

Each Lean definition is translated from the corresponding Python
function; names follow the source where Lean syntax allows it.
-/

namespace SynthData

/-! ## Israeli national-ID generator (`FieldGeneratorFactory._generate_israeli_id`)

The Python source generates 8 random digits, computes a weighted sum with
`weights = [1, 2, 1, 2, 1, 2, 1, 2]`, folding every two-digit product
`p` into `p - 9`, takes `check_digit = (10 - (weighted_sum % 10)) % 10`
and joins the 9 digits with `''.join(map(str, id_num))`. -/

/-- The weight list of `_generate_israeli_id` (`weights = [1,2,1,2,1,2,1,2]`). -/
def israeliWeights : List Nat := [1, 2, 1, 2, 1, 2, 1, 2]

/-- One loop step of the checksum: `digit_product if digit_product < 10
else digit_product - 9` for `digit_product = digit * weight`. -/
def luhnFold (digit weight : Nat) : Nat :=
  if digit * weight < 10 then digit * weight else digit * weight - 9

/-- The `weighted_sum` accumulated by the loop `for i in range(8)`. -/
def weightedSum (ds : List Nat) : Nat :=
  (ds.zip israeliWeights).foldl (fun acc dw => acc + luhnFold dw.1 dw.2) 0

/-- Python `check_digit = (10 - (weighted_sum % 10)) % 10`. -/
def checkDigit (ds : List Nat) : Nat :=
  (10 - (weightedSum ds % 10)) % 10

/-- Python `''.join(map(str, id_num))` over the 8 random digits with the check
digit appended (`id_num.append(check_digit)`). -/
def israeli_id_string (ds : List Nat) : String :=
  String.join ((ds ++ [checkDigit ds]).map (fun d => toString d))

/-- Decode a decimal string back into its digit list (the re-validation
direction of the round-trip property). -/
def digitsOf (s : String) : List Nat :=
  s.data.map (fun c => c.toNat - Char.toNat '0')

/-- The weighted sum exactly as the specification words it: an even
(0-indexed) position contributes the digit itself, an odd position
contributes double the digit with 9 subtracted when the doubled value
is ≥ 10.  Stated over the first 8 digits. -/
def specWeightedSum (ds : List Nat) : Nat :=
  ((ds.take 8).enum).foldl
    (fun acc id =>
      acc + (if id.1 % 2 = 0 then id.2
             else if 2 * id.2 ≥ 10 then 2 * id.2 - 9 else 2 * id.2)) 0

/-! Helper lemmas about single decimal digits. -/

theorem toString_digit_data (d : Nat) (hd : d < 10) :
    (toString d).data = [Char.ofNat (d + Char.toNat '0')] := by
  interval_cases d <;> rfl

theorem digit_decode (d : Nat) (hd : d < 10) :
    (Char.ofNat (d + Char.toNat '0')).toNat - Char.toNat '0' = d := by
  interval_cases d <;> rfl

theorem string_join_data (l : List String) :
    (String.join l).data = (l.map String.data).flatten := by
  have aux : ∀ (l : List String) (s : String),
      (l.foldl (· ++ ·) s).data = s.data ++ (l.map String.data).flatten := by
    intro l
    induction l with
    | nil => intro s; simp
    | cons x xs ih =>
        intro s
        simp only [List.foldl_cons, List.map_cons, List.flatten_cons, ih]
        simp
  simp [aux l ""]

/-- Data of the generated ID string: one character per digit. -/
theorem israeli_id_string_data (ds : List Nat) (hd : ∀ d ∈ ds, d < 10) :
    (israeli_id_string ds).data
      = (ds ++ [checkDigit ds]).map (fun d => Char.ofNat (d + Char.toNat '0')) := by
  have hcd : checkDigit ds < 10 := by
    unfold checkDigit; omega
  unfold israeli_id_string
  rw [string_join_data, List.map_map]
  have : ∀ (l : List Nat), (∀ d ∈ l, d < 10) →
      (l.map (String.data ∘ fun d => toString d)).flatten
        = l.map (fun d => Char.ofNat (d + Char.toNat '0')) := by
    intro l
    induction l with
    | nil => intro _; rfl
    | cons x xs ih =>
        intro h
        have hx : x < 10 := h x (List.mem_cons_self x xs)
        simp only [List.map_cons, List.flatten_cons, Function.comp,
          toString_digit_data x hx, ih (fun d hdm => h d (List.mem_cons_of_mem x hdm))]
        rfl
  refine this _ ?_
  intro d hdm
  rcases List.mem_append.mp hdm with h1 | h2
  · exact hd d h1
  · have hde : d = checkDigit ds := by simpa using h2
    simpa [hde] using hcd

/-- At weight 1 (even position) the fold step returns the digit itself. -/
theorem luhnFold_one (d : Nat) (h : d < 10) : luhnFold d 1 = d := by
  simp only [luhnFold, Nat.mul_one, if_pos h]

/-- At weight 2 (odd position) the fold step doubles and folds down by 9
when the doubled value reaches 10. -/
theorem luhnFold_two (d : Nat) :
    luhnFold d 2 = if 2 * d ≥ 10 then 2 * d - 9 else 2 * d := by
  unfold luhnFold; split_ifs <;> omega

/-- The code's weight-list fold equals the specification's by-position
description, for 8-digit inputs. -/
theorem weightedSum_eq_specWeightedSum (ds : List Nat) (h8 : ds.length = 8)
    (hd : ∀ d ∈ ds, d < 10) :
    weightedSum ds = specWeightedSum ds := by
  obtain ⟨d0, ds, rfl⟩ := List.exists_of_length_succ ds h8
  simp only [List.length_cons, Nat.succ_inj] at h8
  obtain ⟨d1, ds, rfl⟩ := List.exists_of_length_succ ds h8
  simp only [List.length_cons, Nat.succ_inj] at h8
  obtain ⟨d2, ds, rfl⟩ := List.exists_of_length_succ ds h8
  simp only [List.length_cons, Nat.succ_inj] at h8
  obtain ⟨d3, ds, rfl⟩ := List.exists_of_length_succ ds h8
  simp only [List.length_cons, Nat.succ_inj] at h8
  obtain ⟨d4, ds, rfl⟩ := List.exists_of_length_succ ds h8
  simp only [List.length_cons, Nat.succ_inj] at h8
  obtain ⟨d5, ds, rfl⟩ := List.exists_of_length_succ ds h8
  simp only [List.length_cons, Nat.succ_inj] at h8
  obtain ⟨d6, ds, rfl⟩ := List.exists_of_length_succ ds h8
  simp only [List.length_cons, Nat.succ_inj] at h8
  obtain ⟨d7, ds, rfl⟩ := List.exists_of_length_succ ds h8
  simp only [List.length_cons, Nat.succ_inj] at h8
  rw [List.length_eq_zero] at h8
  subst h8
  have h0 : d0 < 10 := hd d0 (by simp)
  have h2 : d2 < 10 := hd d2 (by simp)
  have h4 : d4 < 10 := hd d4 (by simp)
  have h6 : d6 < 10 := hd d6 (by simp)
  simp only [weightedSum, specWeightedSum, israeliWeights,
    List.zip_cons_cons, List.zip_nil_right, List.foldl_cons, List.foldl_nil,
    List.take, List.enum, List.enumFrom, luhnFold_one d0 h0, luhnFold_one d2 h2,
    luhnFold_one d4 h4, luhnFold_one d6 h6, luhnFold_two]
  norm_num

/-- A single digit below 10 encodes to a decimal digit character. -/
theorem digitChar_isDigit (d : Nat) (hd : d < 10) :
    (Char.ofNat (d + Char.toNat '0')).isDigit = true := by
  interval_cases d <;> decide

/-- Decoding the generated ID string recovers the 8 digits with the check
digit appended. -/
theorem digitsOf_israeli_id_string (ds : List Nat) (hd : ∀ d ∈ ds, d < 10) :
    digitsOf (israeli_id_string ds) = ds ++ [checkDigit ds] := by
  have hcd : checkDigit ds < 10 := by unfold checkDigit; omega
  unfold digitsOf
  rw [israeli_id_string_data ds hd, List.map_map]
  have : ∀ d ∈ ds ++ [checkDigit ds],
      ((fun c => c.toNat - Char.toNat '0') ∘ fun d => Char.ofNat (d + Char.toNat '0')) d = id d := by
    intro d hdm
    rcases List.mem_append.mp hdm with h1 | h2
    · exact digit_decode d (hd d h1)
    · have hde : d = checkDigit ds := by simpa using h2
      exact digit_decode d (hde ▸ hcd)
  rw [List.map_congr_left this, List.map_id]

/-- C1: every national-ID value produced by the non-exhausted path of the
Israeli-ID generator is a 9-digit string whose 9th digit is the checksum
`(10 − (weighted_sum mod 10)) mod 10` of the first 8 digits, where the
weighted sum takes each even-position digit as is and folds each doubled
odd-position digit by subtracting 9 when it reaches 10; re-running the
checksum on the first 8 decoded digits reproduces the stored 9th digit. -/
theorem israeli_id_valid_roundtrip (ds : List Nat) (h8 : ds.length = 8)
    (hd : ∀ d ∈ ds, d < 10) :
    (israeli_id_string ds).length = 9 ∧
    (∀ c ∈ (israeli_id_string ds).data, c.isDigit = true) ∧
    digitsOf (israeli_id_string ds) = ds ++ [checkDigit ds] ∧
    checkDigit ds = (10 - (specWeightedSum ds % 10)) % 10 ∧
    (digitsOf (israeli_id_string ds)).drop 8
      = [checkDigit ((digitsOf (israeli_id_string ds)).take 8)] := by
  have hdec := digitsOf_israeli_id_string ds hd
  have hdata := israeli_id_string_data ds hd
  refine ⟨?_, ?_, hdec, ?_, ?_⟩
  · show (israeli_id_string ds).data.length = 9
    rw [hdata]; simp [h8]
  · intro c hc
    rw [hdata] at hc
    obtain ⟨d, hdm, rfl⟩ := List.mem_map.mp hc
    have hcd : checkDigit ds < 10 := by unfold checkDigit; omega
    rcases List.mem_append.mp hdm with h1 | h2
    · exact digitChar_isDigit d (hd d h1)
    · have hde : d = checkDigit ds := by simpa using h2
      exact digitChar_isDigit d (hde ▸ hcd)
  · unfold checkDigit
    rw [weightedSum_eq_specWeightedSum ds h8 hd]
  · rw [hdec, List.take_append_of_le_length (by omega), List.drop_append_of_le_length (by omega)]
    simp [h8, List.take_of_length_le]

/-- Witness for `israeli_id_valid_roundtrip` at the concrete digit list
`[1,2,3,4,5,6,7,8]` (generated string `"123456782"`). -/
theorem israeli_id_valid_roundtrip_witness :
    ([1, 2, 3, 4, 5, 6, 7, 8] : List Nat).length = 8 ∧
    (∀ d ∈ ([1, 2, 3, 4, 5, 6, 7, 8] : List Nat), d < 10) ∧
    (israeli_id_string [1, 2, 3, 4, 5, 6, 7, 8]).length = 9 ∧
    digitsOf (israeli_id_string [1, 2, 3, 4, 5, 6, 7, 8])
      = [1, 2, 3, 4, 5, 6, 7, 8] ++ [checkDigit [1, 2, 3, 4, 5, 6, 7, 8]] := by
  have h := israeli_id_valid_roundtrip [1, 2, 3, 4, 5, 6, 7, 8] (by decide) (by decide)
  exact ⟨by decide, by decide, h.1, h.2.2.1⟩

/-! ## Uniqueness-tracked generators
(`_generate_email`, `_generate_phone`, `_generate_israeli_id`,
`_generate_account_number`)

Each generator draws candidates from its random source for up to
`max_attempts = 100` tries, returns the first candidate not present in the
per-category `used_values` set (adding it to the set), and after 100
collisions returns a category-specific fallback value.  The random source
is modelled as a stream (`Nat → _`) of draws; the registry as a list of
issued values. -/

/-- Index of the first of `n` candidate draws absent from the registry
(the `for _ in range(max_attempts)` loop). -/
def firstFresh (cand : Nat → String) (used : List String) (n : Nat) : Option Nat :=
  (List.range n).find? (fun i => !(used.contains (cand i)))

/-- The shared retry loop: return the first fresh candidate and register
it, or the fallback after 100 collisions (the fallback is returned
without being added to `used_values`, exactly as in the source). -/
def uniqueLoop (cand : Nat → String) (fb : String) (used : List String) :
    String × List String :=
  match firstFresh cand used 100 with
  | some i => (cand i, cand i :: used)
  | none => (fb, used)

/-- Python `f"unique_{len(self.used_values['emails'])}@example.com"`. -/
def emailFallback (n : Nat) : String := "unique_" ++ toString n ++ "@example.com"

/-- Python `_generate_email` over a stream of faker draws. -/
def generate_email (cand : Nat → String) (used : List String) : String × List String :=
  uniqueLoop cand (emailFallback used.length) used

/-- Python `f"{n:08d}"`-style zero padding. -/
def zeroPad (w n : Nat) : String :=
  String.mk (List.replicate (w - (toString n).length) '0') ++ toString n

/-- Python `f"1{len(self.used_values['israeli_ids']):08d}"`. -/
def israeliIdFallback (n : Nat) : String := "1" ++ zeroPad 8 n

/-- Python `_generate_israeli_id` over a stream of 8-digit draws; each candidate
is the checksummed ID string built from the drawn digits. -/
def generate_israeli_id (digits : Nat → List Nat) (used : List String) :
    String × List String :=
  uniqueLoop (fun i => israeli_id_string (digits i))
    (israeliIdFallback used.length) used

/-- Python `f"A{len(self.used_values['account_numbers']):07d}"`. -/
def accountFallback (n : Nat) : String := "A" ++ zeroPad 7 n

/-- Python `_generate_account_number` over a stream of `randint` draws. -/
def generate_account_number (nums : Nat → Nat) (used : List String) :
    String × List String :=
  uniqueLoop (fun i => toString (nums i)) (accountFallback used.length) used

/-- Python `prefixes = ['050', '052', '053', '054', '055', '057', '058']`. -/
def phonePrefixes : List String := ["050", "052", "053", "054", "055", "057", "058"]

/-- Python `f"{random.choice(prefixes)}-{random.randint(1000000, 9999999)}"`. -/
def phoneCandidate (pref : Nat → Fin phonePrefixes.length) (nums : Nat → Nat)
    (i : Nat) : String :=
  phonePrefixes.get (pref i) ++ "-" ++ toString (nums i)

/-- Python `_generate_phone`; the fallback `f"059-{random.randint(1000000, 9999999)}"`
uses a fresh random draw, not the registry size. -/
def generate_phone (pref : Nat → Fin phonePrefixes.length) (nums : Nat → Nat)
    (fallbackNum : Nat) (used : List String) : String × List String :=
  uniqueLoop (phoneCandidate pref nums)
    ("059-" ++ toString fallbackNum) used

/-- A run of `k` successive `_generate_email` calls, call `j` drawing from
stream `cands j`; returns the produced values and the final registry. -/
def runEmails (cands : Nat → Nat → String) : List String → Nat → List String × List String
  | used, 0 => ([], used)
  | used, k + 1 =>
      let r := generate_email (cands 0) used
      let rest := runEmails (fun j => cands (j + 1)) r.2 k
      (r.1 :: rest.1, rest.2)

/-- Every call of the run finds a fresh candidate within the attempt cap
(no call reaches the fallback). -/
def allSucceed (cands : Nat → Nat → String) : List String → Nat → Bool
  | _, 0 => true
  | used, k + 1 =>
      match firstFresh (cands 0) used 100 with
      | some _ => allSucceed (fun j => cands (j + 1)) (generate_email (cands 0) used).2 k
      | none => false

theorem firstFresh_not_mem (cand : Nat → String) (used : List String) (n i : Nat)
    (h : firstFresh cand used n = some i) : cand i ∉ used := by
  have := List.find?_some h
  simpa using this

theorem uniqueLoop_success (cand : Nat → String) (fb : String) (used : List String)
    (i : Nat) (h : firstFresh cand used 100 = some i) :
    cand i ∉ used ∧ uniqueLoop cand fb used = (cand i, cand i :: used) := by
  refine ⟨firstFresh_not_mem cand used 100 i h, ?_⟩
  unfold uniqueLoop
  rw [h]

theorem uniqueLoop_exhausted (cand : Nat → String) (fb : String) (used : List String)
    (h : firstFresh cand used 100 = none) :
    uniqueLoop cand fb used = (fb, used) := by
  unfold uniqueLoop
  rw [h]

/-- The registry never shrinks across a call. -/
theorem generate_email_mono (cand : Nat → String) (used : List String) :
    used ⊆ (generate_email cand used).2 := by
  unfold generate_email uniqueLoop
  cases h : firstFresh cand used 100 with
  | none => simp
  | some i => simp [List.subset_cons_of_subset]

theorem runEmails_mono (cands : Nat → Nat → String) (used : List String) (k : Nat) :
    used ⊆ (runEmails cands used k).2 := by
  induction k generalizing cands used with
  | zero => simp [runEmails]
  | succ k ih =>
      simp only [runEmails]
      exact (generate_email_mono (cands 0) used).trans (ih _ _)

/-- In an all-success run, every produced value is outside the starting
registry and inside the final registry. -/
theorem runEmails_fresh (cands : Nat → Nat → String) (used : List String) (k : Nat)
    (h : allSucceed cands used k = true) :
    ∀ w ∈ (runEmails cands used k).1, w ∉ used ∧ w ∈ (runEmails cands used k).2 := by
  induction k generalizing cands used with
  | zero => simp [runEmails]
  | succ k ih =>
      simp only [allSucceed] at h
      cases hf : firstFresh (cands 0) used 100 with
      | none => rw [hf] at h; exact absurd h (by simp)
      | some i =>
          rw [hf] at h
          intro w hw
          have hgen : generate_email (cands 0) used = (cands 0 i, cands 0 i :: used) :=
            (uniqueLoop_success (cands 0) _ used i hf).2
          have hfreshi : cands 0 i ∉ used :=
            (uniqueLoop_success (cands 0) (emailFallback used.length) used i hf).1
          simp only [runEmails, hgen, List.mem_cons] at hw ⊢
          rcases hw with rfl | hw
          · exact ⟨hfreshi,
              runEmails_mono _ _ k (List.mem_cons_self _ _)⟩
          · have := ih (fun j => cands (j + 1)) (cands 0 i :: used) (by simpa [hgen] using h) w hw
            exact ⟨fun hwu => this.1 (List.mem_cons_of_mem _ hwu), this.2⟩

/-- In an all-success run, produced values are pairwise distinct. -/
theorem runEmails_nodup (cands : Nat → Nat → String) (used : List String) (k : Nat)
    (h : allSucceed cands used k = true) :
    (runEmails cands used k).1.Nodup := by
  induction k generalizing cands used with
  | zero => simp [runEmails]
  | succ k ih =>
      simp only [allSucceed] at h
      cases hf : firstFresh (cands 0) used 100 with
      | none => rw [hf] at h; exact absurd h (by simp)
      | some i =>
          rw [hf] at h
          have hgen : generate_email (cands 0) used = (cands 0 i, cands 0 i :: used) :=
            (uniqueLoop_success (cands 0) _ used i hf).2
          have hsucc : allSucceed (fun j => cands (j + 1)) (cands 0 i :: used) k = true := by
            simpa [hgen] using h
          simp only [runEmails, hgen, List.nodup_cons]
          refine ⟨fun hmem => ?_, ih _ _ hsucc⟩
          have := (runEmails_fresh _ _ k hsucc (cands 0 i) hmem).1
          exact this (List.mem_cons_self _ _)

/-- C2 counterexample: after 100 collisions (i) the email fallback is
returned without being added to the registry and an identical second call
returns the very same value, (ii) the Israeli-ID fallback can equal an
already-issued value (`"100000009"` is both a valid generated ID and the
fallback at registry size 9), and (iii) the phone fallback depends on a
fresh random draw, so equal registries can yield different fallbacks. -/
theorem unique_fallback_counterexample :
    (generate_email (fun _ => "a@x.com") ["a@x.com"]).1 ∉
        (generate_email (fun _ => "a@x.com") ["a@x.com"]).2 ∧
    (generate_email (fun _ => "a@x.com")
        ((generate_email (fun _ => "a@x.com") ["a@x.com"]).2)).1
      = (generate_email (fun _ => "a@x.com") ["a@x.com"]).1 ∧
    (generate_israeli_id (fun _ => [1, 0, 0, 0, 0, 0, 0, 0])
        ["100000009", "u1", "u2", "u3", "u4", "u5", "u6", "u7", "u8"]).1
      ∈ ["100000009", "u1", "u2", "u3", "u4", "u5", "u6", "u7", "u8"] ∧
    (generate_phone (fun _ => ⟨0, by decide⟩) (fun _ => 1234567) 1111111
        ["050-1234567"]).1
      ≠ (generate_phone (fun _ => ⟨0, by decide⟩) (fun _ => 1234567) 2222222
        ["050-1234567"]).1 := by
  refine ⟨by decide, by decide, by decide, by decide⟩

/-- C2 amended: each uniqueness-tracked generator tries up to 100
candidates against the per-category registry and returns the first
non-colliding candidate, adding it to the registry; if all 100 attempts
collide it returns its category fallback (registry-size-derived for
email/national-ID/account-number, a fresh random `"059-"` number for
phone) WITHOUT registering it; values produced by non-exhausted calls
within one run are pairwise distinct. -/
theorem unique_tracked_generators (cand : Nat → String) (digits : Nat → List Nat)
    (nums : Nat → Nat) (pref : Nat → Fin phonePrefixes.length) (pnums : Nat → Nat)
    (fallbackNum : Nat) (used : List String) (cands : Nat → Nat → String) (k : Nat) :
    (∀ i, firstFresh cand used 100 = some i →
        cand i ∉ used ∧ generate_email cand used = (cand i, cand i :: used)) ∧
    (firstFresh cand used 100 = none →
        generate_email cand used = (emailFallback used.length, used)) ∧
    (∀ i, firstFresh (fun j => israeli_id_string (digits j)) used 100 = some i →
        israeli_id_string (digits i) ∉ used ∧
        generate_israeli_id digits used
          = (israeli_id_string (digits i), israeli_id_string (digits i) :: used)) ∧
    (firstFresh (fun j => israeli_id_string (digits j)) used 100 = none →
        generate_israeli_id digits used = (israeliIdFallback used.length, used)) ∧
    (∀ i, firstFresh (fun j => toString (nums j)) used 100 = some i →
        toString (nums i) ∉ used ∧
        generate_account_number nums used
          = (toString (nums i), toString (nums i) :: used)) ∧
    (firstFresh (fun j => toString (nums j)) used 100 = none →
        generate_account_number nums used = (accountFallback used.length, used)) ∧
    (∀ i, firstFresh (phoneCandidate pref pnums) used 100 = some i →
        phoneCandidate pref pnums i ∉ used ∧
        generate_phone pref pnums fallbackNum used
          = (phoneCandidate pref pnums i, phoneCandidate pref pnums i :: used)) ∧
    (firstFresh (phoneCandidate pref pnums) used 100 = none →
        generate_phone pref pnums fallbackNum used
          = ("059-" ++ toString fallbackNum, used)) ∧
    (allSucceed cands used k = true →
        (runEmails cands used k).1.Nodup ∧
        ∀ w ∈ (runEmails cands used k).1, w ∉ used ∧ w ∈ (runEmails cands used k).2) := by
  refine ⟨fun i h => uniqueLoop_success _ _ _ i h,
    fun h => uniqueLoop_exhausted _ _ _ h,
    fun i h => uniqueLoop_success _ _ _ i h,
    fun h => uniqueLoop_exhausted _ _ _ h,
    fun i h => uniqueLoop_success _ _ _ i h,
    fun h => uniqueLoop_exhausted _ _ _ h,
    fun i h => uniqueLoop_success _ _ _ i h,
    fun h => uniqueLoop_exhausted _ _ _ h,
    fun h => ⟨runEmails_nodup _ _ _ h, runEmails_fresh _ _ _ h⟩⟩

/-- Witness for `unique_tracked_generators` at concrete streams: a fresh
email is issued and registered, a fresh checksummed ID is issued and
registered, and a 3-call all-success run produces pairwise-distinct
emails. -/
theorem unique_tracked_generators_witness :
    generate_email (fun i => toString i ++ "@x") [] = ("0@x", ["0@x"]) ∧
    generate_israeli_id (fun _ => [1, 0, 0, 0, 0, 0, 0, 0]) []
      = ("100000009", ["100000009"]) ∧
    (runEmails (fun i _ => toString i ++ "@x") [] 3).1.Nodup := by
  have h := unique_tracked_generators (fun i => toString i ++ "@x")
      (fun _ => [1, 0, 0, 0, 0, 0, 0, 0]) (fun _ => 123456) (fun _ => ⟨0, by decide⟩)
      (fun _ => 1234567) 1111111 [] (fun i _ => toString i ++ "@x") 3
  refine ⟨((h.1 0 (by decide)).2).trans (by decide), ?_,
    (h.2.2.2.2.2.2.2.2 (by decide)).1⟩
  exact ((h.2.2.1 0 (by decide)).2).trans (by decide)

/-! ## Storing generated rows (`DatabaseGenerator._store_data`)

The source opens ONE session, iterates over all tables executing an
insert per record, commits once after the loop over all tables, and on
any exception rolls the whole session back and re-raises.  The database
is modelled as the list of committed `(table, row)` pairs; whether a
given insert statement succeeds is modelled by the predicate `ok`. -/

/-- The inner `for record in records` loop: execute one insert per record
inside the open transaction (`pending`), failing on the first bad row. -/
def execTable {ρ : Type} (ok : String → ρ → Bool) (t : String) :
    List ρ → List (String × ρ) → Option (List (String × ρ))
  | [], pending => some pending
  | r :: rs, pending =>
      if ok t r then execTable ok t rs (pending ++ [(t, r)]) else none

/-- The outer `for table_name, records in data.items()` loop. -/
def execInserts {ρ : Type} (ok : String → ρ → Bool) :
    List (String × List ρ) → List (String × ρ) → Option (List (String × ρ))
  | [], pending => some pending
  | (t, rs) :: rest, pending =>
      match execTable ok t rs pending with
      | some p2 => execInserts ok rest p2
      | none => none

/-- Python `_store_data`: run the loops in one session; `session.commit()` after
all tables on success, `session.rollback()` and error propagation on any
failure.  Returns the committed database and the propagated error. -/
def store_data {ρ : Type} (ok : String → ρ → Bool) (data : List (String × List ρ))
    (db : List (String × ρ)) : List (String × ρ) × Option String :=
  match execInserts ok data [] with
  | some pending => (db ++ pending, none)
  | none => (db, some "Error storing data")

theorem execTable_eq {ρ : Type} (ok : String → ρ → Bool) (t : String)
    (rs : List ρ) (pending : List (String × ρ)) :
    execTable ok t rs pending =
      if rs.all (ok t) then some (pending ++ rs.map (fun r => (t, r))) else none := by
  induction rs generalizing pending with
  | nil => simp [execTable]
  | cons r rs ih =>
      simp only [execTable, List.all_cons, List.map_cons]
      cases h : ok t r with
      | false => simp
      | true => simp [ih]

theorem execInserts_eq {ρ : Type} (ok : String → ρ → Bool)
    (data : List (String × List ρ)) (pending : List (String × ρ)) :
    execInserts ok data pending =
      if data.all (fun p => p.2.all (ok p.1))
      then some (pending ++ data.flatMap (fun p => p.2.map (fun r => (p.1, r))))
      else none := by
  induction data generalizing pending with
  | nil => simp [execInserts]
  | cons p rest ih =>
      obtain ⟨t, rs⟩ := p
      simp only [execInserts, execTable_eq, List.all_cons, List.flatMap_cons]
      cases h : rs.all (ok t) with
      | false => simp
      | true => rw [Bool.true_and]; simp [ih, List.append_assoc]

/-- C3 amended: all tables are inserted in ONE transaction with a single
commit after the last table; if any insert fails, every table's inserts
(including tables processed earlier in the same call) are rolled back and
the error is propagated, so the database is unchanged; only a fully
successful call commits, atomically, all tables' rows. -/
theorem store_data_single_transaction {ρ : Type} (ok : String → ρ → Bool)
    (data : List (String × List ρ)) (db : List (String × ρ)) :
    store_data ok data db =
      if data.all (fun p => p.2.all (ok p.1))
      then (db ++ data.flatMap (fun p => p.2.map (fun r => (p.1, r))), none)
      else (db, some "Error storing data") := by
  unfold store_data
  rw [execInserts_eq]
  cases h : data.all (fun p => p.2.all (ok p.1)) with
  | false => simp
  | true => simp

/-- C3 counterexample: table `t1` inserts fully before table `t2` fails,
yet after the failing call nothing at all is committed — `t1`'s rows are
rolled back together with `t2`'s, contradicting per-table commits. -/
theorem store_data_counterexample :
    store_data (fun _ r => !(r == "bad")) [("t1", ["r1"]), ("t2", ["bad"])]
        ([] : List (String × String))
      = ([], some "Error storing data") ∧
    ("t1", "r1") ∉ (store_data (fun _ r => !(r == "bad"))
        [("t1", ["r1"]), ("t2", ["bad"])] ([] : List (String × String))).1 := by
  refine ⟨by decide, by decide⟩

/-! ## SQL export value formatting
(`ExportManager._sql_value_formatter` and the identical
`DataGenerationEngine._sql_value_formatter`)

The `isinstance` dispatch chain is modelled by an inductive value type;
non-string values that Python stringifies (`str(value)`) carry their
string form. -/

/-- The single-quote character. -/
def quoteChar : Char := '\''

/-- A one-character single-quote string. -/
def quoteStr : String := String.mk [quoteChar]

/-- A Python value reaching `_sql_value_formatter`: `None`/`NA`, `int`,
`float` (with its `str()` form), `datetime`/`date` (with their `str()`
forms), `str`, or any other object (with its `str()` form). -/
inductive SqlValue where
  | vNone : SqlValue
  | vInt (n : Int) : SqlValue
  | vFloat (repStr : String) : SqlValue
  | vDatetime (repStr : String) : SqlValue
  | vDate (repStr : String) : SqlValue
  | vStr (s : String) : SqlValue
  | vOther (repStr : String) : SqlValue

/-- Python `value.replace("'", "''")` as a character-by-character expansion. -/
def escapeQuotes (s : String) : String :=
  String.mk (s.data.flatMap
    (fun c => if c = quoteChar then [quoteChar, quoteChar] else [c]))

/-- Python `_sql_value_formatter`, following the source's dispatch order:
`None`/NA → `NULL`; `int`/`float` → bare string form; `datetime`/`date`
→ quoted, unescaped; `str` → quoted with internal quotes doubled; any
other object → stringified then escaped exactly like `str`. -/
def sql_value_formatter : SqlValue → String
  | .vNone => "NULL"
  | .vInt n => toString n
  | .vFloat r => r
  | .vDatetime r => quoteStr ++ r ++ quoteStr
  | .vDate r => quoteStr ++ r ++ quoteStr
  | .vStr s => quoteStr ++ escapeQuotes s ++ quoteStr
  | .vOther r => quoteStr ++ escapeQuotes r ++ quoteStr

/-- Inverse of quote doubling: collapse every doubled single quote back
to one quote (how an SQL consumer reads the literal's body). -/
def unescapeQuotes : List Char → List Char
  | [] => []
  | [c] => [c]
  | c1 :: c2 :: rest =>
      if c1 = quoteChar ∧ c2 = quoteChar then quoteChar :: unescapeQuotes rest
      else c1 :: unescapeQuotes (c2 :: rest)

/-- Quote doubling is collapsed exactly by `unescapeQuotes`: escaping is
lossless. -/
theorem unescape_escape (l : List Char) :
    unescapeQuotes (l.flatMap
      (fun c => if c = quoteChar then [quoteChar, quoteChar] else [c])) = l := by
  induction l with
  | nil => rfl
  | cons c cs ih =>
      by_cases hc : c = quoteChar
      · subst hc
        rw [List.flatMap_cons, if_pos rfl, List.cons_append, List.cons_append,
          List.nil_append, unescapeQuotes, if_pos ⟨rfl, rfl⟩, ih]
      · rw [List.flatMap_cons, if_neg hc, List.cons_append, List.nil_append]
        cases hcs : cs.flatMap
            (fun c => if c = quoteChar then [quoteChar, quoteChar] else [c]) with
        | nil =>
            rw [hcs] at ih
            have hnil : cs = [] := by simpa [unescapeQuotes] using ih.symm
            rw [hnil]
            rfl
        | cons d ds =>
            rw [hcs] at ih
            rw [unescapeQuotes, if_neg (fun h => hc h.1), ih]

/-- C4: the formatter maps `None` to `NULL`, numerics to their bare
string form, temporals to their quoted string form, strings to quoted
literals with internal quotes doubled (losslessly), and any other value
identically to strings; the row `(None, 42, "O'Brien")` formats as
`NULL`, `42`, `'O''Brien'`. -/
theorem sql_value_formatter_correct :
    sql_value_formatter .vNone = "NULL" ∧
    (∀ n : Int, sql_value_formatter (.vInt n) = toString n) ∧
    (∀ r : String, sql_value_formatter (.vFloat r) = r) ∧
    (∀ r : String, sql_value_formatter (.vDatetime r) = quoteStr ++ r ++ quoteStr) ∧
    (∀ r : String, sql_value_formatter (.vDate r) = quoteStr ++ r ++ quoteStr) ∧
    (∀ s : String, sql_value_formatter (.vStr s) = quoteStr ++ escapeQuotes s ++ quoteStr ∧
        unescapeQuotes (escapeQuotes s).data = s.data) ∧
    (∀ r : String, sql_value_formatter (.vOther r) = sql_value_formatter (.vStr r)) ∧
    sql_value_formatter (.vInt 42) = "42" ∧
    sql_value_formatter (.vStr (String.mk ['O', '\'', 'B', 'r', 'i', 'e', 'n']))
      = String.mk [quoteChar, 'O', '\'', '\'', 'B', 'r', 'i', 'e', 'n', quoteChar] := by
  refine ⟨rfl, fun n => rfl, fun r => rfl, fun r => rfl, fun r => rfl,
    fun s => ⟨rfl, unescape_escape s.data⟩, fun r => rfl, by decide, by decide⟩

/-! ## String helpers shared by the converter and the resolver.
Python's `in` on strings is contiguous-substring containment and
`str.lower()` is modelled as character-wise lowering. -/

/-- Character-wise `str.lower()`. -/
def lowerStr (s : String) : String := String.mk (s.data.map Char.toLower)

/-- Python's `p in s` substring test. -/
def isSubstring (p s : String) : Bool := decide (p.data <:+: s.data)

/-- Mapping a function over both strings preserves substring containment. -/
theorem isSubstring_map (p s : String) (f : Char → Char)
    (h : isSubstring p s = true) :
    isSubstring (String.mk (p.data.map f)) (String.mk (s.data.map f)) = true := by
  simp only [isSubstring, decide_eq_true_eq] at h ⊢
  obtain ⟨u, v, huv⟩ := h
  exact ⟨u.map f, v.map f, by rw [← huv]; simp⟩

/-! ## Schema translation (`SchemaConverter`)

`_map_swagger_type`, `_convert_property_to_field` and
`_get_generation_config` from `schema_converter.py`. -/

/-- A Swagger/OpenAPI property as consumed by the converter. -/
structure SwaggerProperty where
  type : Option String
  format : Option String
  enum : Option (List String)
  maxLength : Option Nat
  minLength : Option Nat
  minimum : Option Int
  maximum : Option Int
  pattern : Option String
deriving DecidableEq

/-- The `constraints` sub-dictionary of a converted field. -/
structure FieldConstraints where
  max_length : Option Nat
  min_length : Option Nat
  min : Option Int
  max : Option Int
  choices : Option (List String)
  pattern : Option String
deriving DecidableEq

/-- A converted field definition (`type`, `required`, `constraints` and
the `generation` hint's `generator` key). -/
structure FieldDef where
  type : String
  required : Bool
  constraints : FieldConstraints
  generator : Option String
deriving DecidableEq

/-- Python `_map_swagger_type`'s `type_mapping` dictionary. -/
def type_mapping : List (String × String) :=
  [("string", "string"), ("integer", "integer"), ("number", "float"),
   ("boolean", "boolean"), ("array", "array"), ("object", "object")]

/-- Python `_map_swagger_type`: look the declared type up, defaulting to
`"string"`. -/
def map_swagger_type (t : String) : String := (type_mapping.lookup t).getD "string"

/-- Python `_get_generation_config`'s `generator` key: semantic field-name
branches first, then the `format` branches. -/
def get_generation_config (prop_name : String) (format : Option String) :
    Option String :=
  if isSubstring "תעודת_זהות" prop_name then some "israeli_id"
  else if isSubstring "טלפון" prop_name || isSubstring "phone" (lowerStr prop_name) then
    some "israeli_phone"
  else if isSubstring "שם_פרטי" prop_name || isSubstring "first_name" (lowerStr prop_name) then
    some "hebrew_first_name"
  else if isSubstring "שם_משפחה" prop_name || isSubstring "last_name" (lowerStr prop_name) then
    some "hebrew_last_name"
  else if isSubstring "כתובת" prop_name || isSubstring "address" (lowerStr prop_name) then
    some "hebrew_address"
  else if isSubstring "מספר_כרטיס" prop_name || isSubstring "card_number" (lowerStr prop_name) then
    some "credit_card_number"
  else if format = some "email" then some "email"
  else if format = some "date" then some "past_date"
  else if format = some "date-time" then some "past_datetime"
  else none

/-- Python `_convert_property_to_field`: base type via `_map_swagger_type` with
default `"string"`; constraints carried over; an `enum` list forces
`type = "choice"` and becomes the `choices` constraint; the generation
hint comes from `_get_generation_config`. -/
def convert_property_to_field (prop_name : String) (prop : SwaggerProperty)
    (is_required : Bool) : FieldDef :=
  let baseType := map_swagger_type (prop.type.getD "string")
  { type := if prop.enum.isSome then "choice" else baseType
    required := is_required
    constraints :=
      { max_length := prop.maxLength
        min_length := prop.minLength
        min := prop.minimum
        max := prop.maximum
        choices := prop.enum
        pattern := prop.pattern }
    generator := get_generation_config prop_name prop.format }

/-- A string property carrying only a date format tag. -/
def datePropExample : SwaggerProperty :=
  { type := some "string", format := some "date", enum := none,
    maxLength := none, minLength := none, minimum := none, maximum := none,
    pattern := none }

/-- C5 counterexample: a `string` property with the date-like format tag
`"date"` is converted with field type `"string"`, not `"date"` — the
format tag only selects the `past_date` generation hint. -/
theorem swagger_date_format_counterexample :
    (convert_property_to_field "effective_dt" datePropExample false).type = "string" ∧
    (convert_property_to_field "effective_dt" datePropExample false).type ≠ "date" ∧
    (convert_property_to_field "effective_dt" datePropExample false).generator
      = some "past_date" := by
  refine ⟨by decide, by decide, by decide⟩

/-- C5 amended: the converter maps string→string (text), number→float
(decimal), integer→integer, boolean→boolean; an enumerated-values list
forces type `"choice"` regardless of the declared base type, carrying the
enum values as the choice set; the resulting field TYPE never depends on
the format tag (a date-like format only selects a date/datetime
generation hint). -/
theorem convert_property_type_mapping (name : String) (prop : SwaggerProperty)
    (req : Bool) :
    (prop.enum.isSome = true →
        (convert_property_to_field name prop req).type = "choice" ∧
        (convert_property_to_field name prop req).constraints.choices = prop.enum) ∧
    (prop.enum = none →
        (convert_property_to_field name prop req).type
          = map_swagger_type (prop.type.getD "string")) ∧
    map_swagger_type "string" = "string" ∧
    map_swagger_type "number" = "float" ∧
    map_swagger_type "integer" = "integer" ∧
    map_swagger_type "boolean" = "boolean" ∧
    (∀ f, (convert_property_to_field name { prop with format := f } req).type
        = (convert_property_to_field name prop req).type) := by
  refine ⟨fun h => ⟨?_, rfl⟩, fun h => ?_, rfl, rfl, rfl, rfl, fun f => rfl⟩
  · simp [convert_property_to_field, h]
  · simp [convert_property_to_field, h]

/-- Witness for `convert_property_type_mapping`: an enum-forced choice
field and the date-format property mapping to `"string"`. -/
theorem convert_property_type_mapping_witness :
    (convert_property_to_field "status"
        { datePropExample with enum := some ["a", "b"] } false).type = "choice" ∧
    (convert_property_to_field "effective_dt" datePropExample false).type
      = "string" := by
  have h1 := (convert_property_type_mapping "status"
      { datePropExample with enum := some ["a", "b"] } false).1 (by decide)
  have h2 := (convert_property_type_mapping "effective_dt" datePropExample false).2.1 rfl
  exact ⟨h1.1, h2.trans (by decide)⟩

/-! ## Generator resolution
(`SchemaRegistration.get_generator_type` and
`FieldGeneratorFactory.create_generator`)

The registry `field_patterns` is a dict in registration order: Hebrew
patterns first, then English ones.  Resolution: explicit recognized
`generation['generator']` override, then exact / substring name-pattern
match, then the declared field type, then `fake.text(max_nb_chars=50)`. -/

/-- The pattern registry built in `SchemaRegistration.__init__`. -/
def field_patterns : List (String × String) :=
  [("תעודת_זהות", "israeli_id"), ("מספר_כרטיס", "credit_card"),
   ("מספר_חשבון", "account_number"), ("טלפון", "phone"),
   ("דואר_אלקטרוני", "email"), ("שם_פרטי", "first_name"),
   ("שם_משפחה", "last_name"), ("כתובת", "address"), ("עיר", "city"),
   ("israeli_id", "israeli_id"), ("id_number", "israeli_id"),
   ("credit_card_number", "credit_card"), ("account_number", "account_number"),
   ("phone", "phone"), ("email", "email"), ("first_name", "first_name"),
   ("last_name", "last_name"), ("address", "address"), ("city", "city")]

/-- The generator dictionary keys of `FieldGeneratorFactory.__init__`. -/
def generators : List String :=
  ["string", "integer", "float", "date", "datetime", "boolean", "choice",
   "email", "phone", "israeli_id", "credit_card", "account_number",
   "address", "city", "first_name", "last_name"]

/-- Python `SchemaRegistration.get_generator_type`: exact dict hit first, then
the first pattern with `pattern in field_name or pattern.lower() in
field_name.lower()`. -/
def get_generator_type (field_name : String) : Option String :=
  match field_patterns.lookup field_name with
  | some g => some g
  | none =>
      (field_patterns.find? (fun pg =>
        isSubstring pg.1 field_name ||
        isSubstring (lowerStr pg.1) (lowerStr field_name))).map (fun pg => pg.2)

/-- The outcome of `FieldGeneratorFactory.create_generator`: a bound
generator from the dictionary, or the `fake.text(max_nb_chars=50)`
default fallback. -/
inductive GenSel where
  | named (g : String) : GenSel
  | textFallback : GenSel
deriving DecidableEq

/-- The name-pattern step of `create_generator`: a registry hit is used
only when it names a registered generator. -/
def resolveByPattern (field_name : String) : Option String :=
  match get_generator_type field_name with
  | some g => if generators.contains g then some g else none
  | none => none

/-- Python `create_generator`: explicit recognized override, then name-pattern
match, then the declared type, then the generic text fallback. -/
def create_generator (field_name field_type : String)
    (genOverride : Option String) : GenSel :=
  match genOverride.bind (fun g => if generators.contains g then some g else none) with
  | some g => .named g
  | none =>
      match resolveByPattern field_name with
      | some g => .named g
      | none =>
          if generators.contains field_type then .named field_type
          else .textFallback

/-- The resolution order exactly as the specification words it: (a) the
explicit generator-kind override, (b) a name-pattern match, exact first
and then case-insensitive substring, (c) the declared base type, (d) the
generic bounded-length text fallback. -/
def claimPatternMatch (field_name : String) : Option String :=
  match field_patterns.lookup field_name with
  | some g => some g
  | none =>
      (field_patterns.find? (fun pg =>
        isSubstring (lowerStr pg.1) (lowerStr field_name))).map (fun pg => pg.2)

/-- The spec-side resolver built from the claim's four ordered rules. -/
def claimResolve (field_name field_type : String)
    (genOverride : Option String) : GenSel :=
  match genOverride.bind (fun g => if generators.contains g then some g else none) with
  | some g => .named g
  | none =>
      match claimPatternMatch field_name with
      | some g => .named g
      | none =>
          if generators.contains field_type then .named field_type
          else .textFallback

theorem lookup_mem {α β : Type} [BEq α] (l : List (α × β)) (k : α) (v : β)
    (h : l.lookup k = some v) : ∃ k2, (k2, v) ∈ l := by
  induction l with
  | nil => simp [List.lookup] at h
  | cons p rest ih =>
      obtain ⟨k2, v2⟩ := p
      simp only [List.lookup] at h
      cases hk : k == k2 with
      | true =>
          rw [hk] at h
          simp only [Option.some_inj] at h
          exact ⟨k2, by simp [h]⟩
      | false =>
          rw [hk] at h
          obtain ⟨k3, hm⟩ := ih h
          exact ⟨k3, List.mem_cons_of_mem _ hm⟩

/-- The substring test of the source (`pattern in field_name or
pattern.lower() in field_name.lower()`) coincides with the plain
case-insensitive test: containment survives lowering. -/
theorem substring_or_lower (p s : String) :
    (isSubstring p s || isSubstring (lowerStr p) (lowerStr s))
      = isSubstring (lowerStr p) (lowerStr s) := by
  cases h : isSubstring p s with
  | false => simp
  | true =>
      have := isSubstring_map p s Char.toLower h
      simp only [lowerStr]
      simp [this]

theorem get_generator_type_eq_claim (field_name : String) :
    get_generator_type field_name = claimPatternMatch field_name := by
  unfold get_generator_type claimPatternMatch
  have : (fun pg : String × String =>
      isSubstring pg.1 field_name ||
        isSubstring (lowerStr pg.1) (lowerStr field_name))
      = (fun pg : String × String =>
        isSubstring (lowerStr pg.1) (lowerStr field_name)) := by
    funext pg
    exact substring_or_lower pg.1 field_name
  rw [this]

/-- Every registered pattern maps to a key of the generator dictionary. -/
theorem pattern_values_registered (g : String)
    (h : ∃ k, (k, g) ∈ field_patterns) : generators.contains g = true := by
  obtain ⟨k, hm⟩ := h
  have hall : field_patterns.all (fun pg => generators.contains pg.2) = true := by decide
  exact List.all_eq_true.mp hall (k, g) hm

theorem claimPatternMatch_registered (n g : String)
    (h : claimPatternMatch n = some g) : generators.contains g = true := by
  unfold claimPatternMatch at h
  cases hl : field_patterns.lookup n with
  | some g2 =>
      rw [hl] at h
      simp only [Option.some_inj] at h
      subst h
      exact pattern_values_registered g2 (lookup_mem _ _ _ hl)
  | none =>
      rw [hl] at h
      simp only [Option.map_eq_some'] at h
      obtain ⟨pg, hfind, hpg⟩ := h
      subst hpg
      exact pattern_values_registered pg.2 ⟨pg.1, by
        simpa using List.mem_of_find?_eq_some hfind⟩

theorem resolveByPattern_eq_claim (field_name : String) :
    resolveByPattern field_name = claimPatternMatch field_name := by
  unfold resolveByPattern
  rw [get_generator_type_eq_claim]
  cases h : claimPatternMatch field_name with
  | none => rfl
  | some g =>
      have hc := claimPatternMatch_registered field_name g h
      have hm : g ∈ generators := by simpa using hc
      simp [hc, hm]

/-- C6: the factory's generator resolution equals the specification's
first-match-wins rule order — explicit recognized override, then exact /
case-insensitive-substring name-pattern match over the bilingual
registry, then the declared base type, then the generic bounded-length
text fallback. -/
theorem create_generator_resolution_order (field_name field_type : String)
    (genOverride : Option String) :
    create_generator field_name field_type genOverride
      = claimResolve field_name field_type genOverride := by
  unfold create_generator claimResolve
  rw [resolveByPattern_eq_claim]

/-! ## Numeric and choice generators
(`_generate_integer`, `_generate_float`, `_generate_choice`)

`random.randint(a, b)` draws from the inclusive range `[a, b]`;
`random.uniform(a, b)` is modelled as `a + t * (b - a)` for a draw
`t ∈ [0, 1]`; `round(x, d)` rounds to `d` decimal places with Python's
round-half-to-even tie rule; `random.choice(seq)` picks a position in the
sequence. -/

/-- Python `random.randint(lo, hi)` at draw `r`. -/
def randint (lo hi : Int) (r : Nat) : Int := lo + (r : Int) % (hi - lo + 1)

/-- Python `_generate_integer`: `random.randint(min_val, max_val)` (defaults 1
and 1000000 are supplied by the caller's `constraints.get`). -/
def generate_integer (minV maxV : Int) (r : Nat) : Int := randint minV maxV r

/-- Python `random.uniform(lo, hi)` at draw `t ∈ [0, 1]`. -/
def uniform (lo hi : ℚ) (t : ℚ) : ℚ := lo + t * (hi - lo)

/-- Python's `round` to an integer: nearest integer, ties to even. -/
def pyRound (q : ℚ) : ℤ :=
  if q - ⌊q⌋ < 1 / 2 then ⌊q⌋
  else if q - ⌊q⌋ > 1 / 2 then ⌊q⌋ + 1
  else if 2 ∣ ⌊q⌋ then ⌊q⌋ else ⌊q⌋ + 1

/-- Python's `round(x, d)`. -/
def roundTo (d : Nat) (q : ℚ) : ℚ := (pyRound (q * 10 ^ d) : ℚ) / 10 ^ d

/-- Python `_generate_float`: `round(random.uniform(min_val, max_val), decimals)`
(defaults 0.0, 100000.0 and 2 supplied by the caller's `.get`). -/
def generate_float (minV maxV : ℚ) (decimals : Nat) (t : ℚ) : ℚ :=
  roundTo decimals (uniform minV maxV t)

/-- Python `_generate_choice`: `random.choice(constraints.get('choices',
['Option1', 'Option2']))` at position draw `i`. -/
def generate_choice (constraintChoices : Option (List String)) (i : Nat) : String :=
  let choices := constraintChoices.getD ["Option1", "Option2"]
  choices.getD (i % choices.length) ""

/-- Rounding moves a rational by at most one half. -/
theorem pyRound_dist (q : ℚ) : |(pyRound q : ℚ) - q| ≤ 1 / 2 := by
  have h0 : (⌊q⌋ : ℚ) ≤ q := Int.floor_le q
  have h1 : q < ⌊q⌋ + 1 := Int.lt_floor_add_one q
  unfold pyRound
  split_ifs with ha hb hc <;>
    · rw [abs_le]
      push_cast
      constructor <;> linarith

/-- Python `round(·, d)` moves a rational by at most half an ulp. -/
theorem roundTo_dist (d : Nat) (q : ℚ) : |roundTo d q - q| ≤ 1 / (2 * 10 ^ d) := by
  have h := pyRound_dist (q * 10 ^ d)
  have hp : (0 : ℚ) < 10 ^ d := by positivity
  have heq : roundTo d q - q = ((pyRound (q * 10 ^ d) : ℚ) - q * 10 ^ d) / 10 ^ d := by
    unfold roundTo
    field_simp
    ring
  rw [heq, abs_div, abs_of_pos hp]
  rw [div_le_div_iff₀ hp (by positivity)]
  calc |(pyRound (q * 10 ^ d) : ℚ) - q * 10 ^ d| * (2 * 10 ^ d)
      ≤ (1 / 2) * (2 * 10 ^ d) := by
        apply mul_le_mul_of_nonneg_right h
        positivity
    _ = 1 * 10 ^ d := by ring

/-- C7 counterexample: with declared range `[0, 1.006]` and the default
precision 2, the uniform draw `1.006` lies inside the range but rounds to
`1.01`, which exceeds the declared maximum. -/
theorem float_rounding_counterexample :
    (0 : ℚ) ≤ 503 / 500 ∧
    uniform 0 (503 / 500) 1 = 503 / 500 ∧
    generate_float 0 (503 / 500) 2 1 = 101 / 100 ∧
    ¬(generate_float 0 (503 / 500) 2 1 ≤ 503 / 500) := by
  have hu : uniform 0 (503 / 500) 1 = 503 / 500 := by
    unfold uniform; ring
  have hfl : ⌊(503 : ℚ) / 500 * 10 ^ 2⌋ = 100 := by
    rw [show (503 : ℚ) / 500 * 10 ^ 2 = 503 / 5 by ring, Int.floor_eq_iff]
    constructor <;> norm_num
  have hr : generate_float 0 (503 / 500) 2 1 = 101 / 100 := by
    unfold generate_float roundTo pyRound
    rw [hu, hfl]
    norm_num
  refine ⟨by norm_num, hu, hr, by rw [hr]; norm_num⟩

/-- C7 amended: the integer generator always stays inside the declared
closed range; the decimal generator's uniform draw stays inside the
declared range BEFORE rounding, and after rounding stays inside the range
enlarged by half an ulp (`1 / (2·10^d)`) on each side — it can exceed the
declared bounds by up to that amount; every choice-generator value with a
declared non-empty choice set is a member of that set. -/
theorem numeric_generators_in_range (minI maxI : Int) (r : Nat)
    (minQ maxQ t : ℚ) (d : Nat) (cs : List String) (i : Nat) :
    (minI ≤ maxI →
        minI ≤ generate_integer minI maxI r ∧ generate_integer minI maxI r ≤ maxI) ∧
    (minQ ≤ maxQ → 0 ≤ t → t ≤ 1 →
        minQ ≤ uniform minQ maxQ t ∧ uniform minQ maxQ t ≤ maxQ ∧
        minQ - 1 / (2 * 10 ^ d) ≤ generate_float minQ maxQ d t ∧
        generate_float minQ maxQ d t ≤ maxQ + 1 / (2 * 10 ^ d)) ∧
    (cs ≠ [] → generate_choice (some cs) i ∈ cs) := by
  refine ⟨fun hle => ?_, fun hle ht0 ht1 => ?_, fun hne => ?_⟩
  · unfold generate_integer randint
    have hpos : (0 : Int) < maxI - minI + 1 := by omega
    have hm0 : 0 ≤ (r : Int) % (maxI - minI + 1) := Int.emod_nonneg _ (by omega)
    have hm1 : (r : Int) % (maxI - minI + 1) < maxI - minI + 1 :=
      Int.emod_lt_of_pos _ hpos
    omega
  · have hsub : (0 : ℚ) ≤ maxQ - minQ := by linarith
    have hu0 : 0 ≤ t * (maxQ - minQ) := mul_nonneg ht0 hsub
    have hu1 : t * (maxQ - minQ) ≤ maxQ - minQ := by
      calc t * (maxQ - minQ) ≤ 1 * (maxQ - minQ) :=
            mul_le_mul_of_nonneg_right ht1 hsub
        _ = maxQ - minQ := one_mul _
    have hulo : minQ ≤ uniform minQ maxQ t := by unfold uniform; linarith
    have huhi : uniform minQ maxQ t ≤ maxQ := by unfold uniform; linarith
    have hd := roundTo_dist d (uniform minQ maxQ t)
    rw [abs_le] at hd
    refine ⟨hulo, huhi, ?_, ?_⟩
    · unfold generate_float; linarith [hd.1]
    · unfold generate_float; linarith [hd.2]
  · unfold generate_choice
    have hlen : 0 < cs.length := List.length_pos.mpr hne
    have hmod : i % cs.length < cs.length := Nat.mod_lt _ hlen
    simp only [Option.getD_some]
    rw [List.getD_eq_getElem _ _ hmod]
    exact List.getElem_mem _

/-- Witness for `numeric_generators_in_range` at the concrete range
`[1, 5]`, draw 7; range `[0, 1]`, draw `1/2`, precision 2; and choice set
`["a", "b"]`, position 3. -/
theorem numeric_generators_in_range_witness :
    (1 : Int) ≤ generate_integer 1 5 7 ∧ generate_integer 1 5 7 ≤ 5 ∧
    generate_float 0 1 2 (1 / 2) ≤ 1 + 1 / (2 * 10 ^ 2) ∧
    generate_choice (some ["a", "b"]) 3 ∈ ["a", "b"] := by
  have h := numeric_generators_in_range 1 5 7 0 1 (1 / 2) 2 ["a", "b"] 3
  have h1 := h.1 (by norm_num)
  have h2 := h.2.1 (by norm_num) (by norm_num) (by norm_num)
  have h3 := h.2.2 (by simp)
  exact ⟨h1.1, h1.2, h2.2.2.2, h3⟩

/-! ## The run-everything pipeline entry point
(`DataGenerationEngine.generate_database`)

The `try` block runs steps 1–5 in order; an exception in any step skips
the remaining steps and the `except` clause returns a dictionary
`{"status": "error", "message": str(e), "definition_file": ...,
"strategy": ..., "db_url": ..., "timestamp": ...}` — it re-raises
nothing.  A step's outcome is modelled by `outcome i` (`none` = the step
returns, `some e` = the step raises with message `e`). -/

/-- The five steps of `generate_database`, in invocation order. -/
def stageNames : List String :=
  ["load_definition_file", "prepare_database_url", "create_generator",
   "convert_definition_to_generator_schema", "generate_database_data"]

/-- Sequential execution of steps `k, k+1, …, k+n-1` inside the `try`
block: returns the indices actually invoked and the propagated exception
(if any); steps after a raising step are never invoked. -/
def runSteps (outcome : Nat → Option String) : Nat → Nat → List Nat × Option String
  | _, 0 => ([], none)
  | k, n + 1 =>
      match outcome k with
      | some e => ([k], some e)
      | none =>
          let rest := runSteps outcome (k + 1) n
          (k :: rest.1, rest.2)

/-- The dictionary returned by the `except` clause of
`generate_database`. -/
def errorPayload (msg defFile strat dbUrl ts : String) : List (String × String) :=
  [("status", "error"), ("message", msg), ("definition_file", defFile),
   ("strategy", strat), ("db_url", dbUrl), ("timestamp", ts)]

/-- The observable outcome of `generate_database`: the success payload or
the structured error dictionary. -/
inductive PipeResult where
  | success : PipeResult
  | errorResult (fields : List (String × String)) : PipeResult
deriving DecidableEq

/-- Python `generate_database`: run the five steps; on an exception return (not
raise) the structured error dictionary.  Also exposes the list of steps
that were invoked. -/
def generate_database (outcome : Nat → Option String)
    (defFile strat dbUrl ts : String) : PipeResult × List Nat :=
  let run := runSteps outcome 0 5
  match run.2 with
  | some e => (.errorResult (errorPayload e defFile strat dbUrl ts), run.1)
  | none => (.success, run.1)

theorem runSteps_success (outcome : Nat → Option String) (n : Nat) :
    ∀ k, (∀ j, j < n → outcome (k + j) = none) →
      runSteps outcome k n = (List.range' k n, none) := by
  induction n with
  | zero => intro k _; rfl
  | succ n ih =>
      intro k h
      have h0 : outcome k = none := by simpa using h 0 (Nat.succ_pos n)
      have hrest := ih (k + 1) (fun j hj => by
        have := h (j + 1) (Nat.succ_lt_succ hj)
        simpa [Nat.add_assoc, Nat.add_comm 1 j] using this)
      simp only [runSteps, h0, hrest, List.range'_succ]

theorem runSteps_failure (outcome : Nat → Option String) (e : String) (i : Nat) :
    ∀ k n, i < n → outcome (k + i) = some e →
      (∀ j, j < i → outcome (k + j) = none) →
      runSteps outcome k n = (List.range' k (i + 1), some e) := by
  induction i with
  | zero =>
      intro k n hn he _
      obtain ⟨m, rfl⟩ : ∃ m, n = m + 1 := ⟨n - 1, by omega⟩
      simp only [Nat.add_zero] at he
      simp [runSteps, he, List.range'_one]
  | succ i ih =>
      intro k n hn he hok
      obtain ⟨m, rfl⟩ : ∃ m, n = m + 1 := ⟨n - 1, by omega⟩
      have h0 : outcome k = none := by simpa using hok 0 (Nat.succ_pos i)
      have hrest := ih (k + 1) m (by omega)
        (by
          have hki : k + 1 + i = k + (i + 1) := by omega
          rw [hki]; exact he)
        (fun j hj => by
          have hj2 := hok (j + 1) (Nat.succ_lt_succ hj)
          have hkj : k + 1 + j = k + (j + 1) := by omega
          rw [hkj]; exact hj2)
      simp only [runSteps, h0, hrest, List.range'_succ]

/-- C8 amended: the entry point executes the stages in order; on the
first stage failure it stops without invoking later stages and returns
(does not raise) a structured error result with `status = "error"` whose
`message` field carries the original error text — but the result contains
NO field naming the failed stage; when every stage succeeds all five run
and the success payload is returned. -/
theorem generate_database_short_circuit (outcome : Nat → Option String)
    (defFile strat dbUrl ts e : String) (i : Nat) :
    (i < 5 → outcome i = some e → (∀ j, j < i → outcome j = none) →
      generate_database outcome defFile strat dbUrl ts
          = (.errorResult (errorPayload e defFile strat dbUrl ts), List.range' 0 (i + 1)) ∧
        (∀ j, i < j → j ∉ (generate_database outcome defFile strat dbUrl ts).2) ∧
        ("status", "error") ∈ errorPayload e defFile strat dbUrl ts ∧
        ("message", e) ∈ errorPayload e defFile strat dbUrl ts ∧
        (∀ kv ∈ errorPayload e defFile strat dbUrl ts,
          kv ∈ [("status", "error"), ("message", e), ("definition_file", defFile),
            ("strategy", strat), ("db_url", dbUrl), ("timestamp", ts)])) ∧
    ((∀ j, j < 5 → outcome j = none) →
      generate_database outcome defFile strat dbUrl ts = (.success, List.range' 0 5)) := by
  constructor
  · intro hi he hok
    have hrun := runSteps_failure outcome e i 0 5 hi (by simpa using he)
      (fun j hj => by simpa using hok j hj)
    refine ⟨?_, ?_, by simp [errorPayload], by simp [errorPayload], ?_⟩
    · unfold generate_database
      rw [hrun]
    · intro j hj
      unfold generate_database
      rw [hrun]
      simp only [List.mem_range']
      omega
    · intro kv hkv
      simpa [errorPayload] using hkv
  · intro hall
    have hrun := runSteps_success outcome 5 0 (fun j hj => by simpa using hall j hj)
    unfold generate_database
    rw [hrun]

/-- C8 counterexample: stage 1 (`prepare_database_url`) fails with
message `"boom"`; the returned structured error result carries the
message and run parameters but no value mentioning any stage name. -/
theorem pipeline_no_stage_name_counterexample :
    generate_database (fun i => if i = 1 then some "boom" else none)
        "f.json" "faker" "auto-generated" "t0"
      = (.errorResult (errorPayload "boom" "f.json" "faker" "auto-generated" "t0"),
          [0, 1]) ∧
    (∀ kv ∈ errorPayload "boom" "f.json" "faker" "auto-generated" "t0",
      ∀ s ∈ stageNames, isSubstring s kv.2 = false) := by
  refine ⟨by decide, by decide⟩

/-- Witness for `generate_database_short_circuit`: with stage 1 failing,
only stages 0 and 1 run and the error payload is returned. -/
theorem generate_database_short_circuit_witness :
    generate_database (fun i => if i = 1 then some "boom" else none)
        "f.json" "faker" "auto-generated" "t0"
      = (.errorResult (errorPayload "boom" "f.json" "faker" "auto-generated" "t0"),
          List.range' 0 2) ∧
    (3 : Nat) ∉ (generate_database (fun i => if i = 1 then some "boom" else none)
        "f.json" "faker" "auto-generated" "t0").2 := by
  have h := (generate_database_short_circuit
      (fun i => if i = 1 then some "boom" else none)
      "f.json" "faker" "auto-generated" "t0" "boom" 1).1
    (by omega) (by decide) (fun j hj => by interval_cases j; decide)
  exact ⟨h.1, h.2.1 3 (by omega)⟩

/-! ## Definition loading (`DataGenerationEngine.load_definition_file`)

After parsing, the source checks only `if "tables" not in definition:`
and raises `ValueError("Invalid definition file: missing 'tables'
section")`; otherwise it returns the parsed definition.  The parsed
document is modelled with `tables = none` for an absent key. -/

/-- A parsed Definition document: the `tables` mapping (absent key =
`none`), table bodies abstracted by `τ`. -/
structure DefinitionDoc (τ : Type) where
  tables : Option (List (String × τ))
deriving DecidableEq

/-- Python `load_definition_file` from the parsed document onward. -/
def load_definition_file {τ : Type} (doc : DefinitionDoc τ) :
    Except String (DefinitionDoc τ) :=
  if (doc.tables).isNone then
    Except.error "Invalid definition file: missing 'tables' section"
  else Except.ok doc

/-- C9 counterexample: a document whose `tables` mapping is present but
EMPTY loads successfully — the loader does not fail fast on empty
`tables`, only on an absent key. -/
theorem load_definition_empty_tables_counterexample :
    load_definition_file ({ tables := some [] } : DefinitionDoc Unit)
      = Except.ok { tables := some [] } ∧
    ∀ e, load_definition_file ({ tables := some [] } : DefinitionDoc Unit)
      ≠ Except.error e := by
  refine ⟨rfl, fun e h => ?_⟩
  simp [load_definition_file] at h

/-- C9 amended: loading fails fast (with the descriptive error, before
any generation state is stored) exactly when the `tables` key is ABSENT;
any document with a `tables` mapping — empty included — loads
successfully and is returned as parsed. -/
theorem load_definition_file_requires_tables {τ : Type} (doc : DefinitionDoc τ) :
    (doc.tables = none →
        load_definition_file doc
          = Except.error "Invalid definition file: missing 'tables' section") ∧
    (∀ ts, doc.tables = some ts → load_definition_file doc = Except.ok doc) := by
  constructor
  · intro h
    simp [load_definition_file, h]
  · intro ts h
    simp [load_definition_file, h]

/-- Witness for `load_definition_file_requires_tables`: a missing
`tables` key errors, a one-table document loads. -/
theorem load_definition_file_requires_tables_witness :
    load_definition_file ({ tables := none } : DefinitionDoc Unit)
      = Except.error "Invalid definition file: missing 'tables' section" ∧
    load_definition_file ({ tables := some [("users", ())] } : DefinitionDoc Unit)
      = Except.ok { tables := some [("users", ())] } := by
  exact ⟨(load_definition_file_requires_tables _).1 rfl,
    (load_definition_file_requires_tables _).2 [("users", ())] rfl⟩

/-! ## Swagger components/schemas → tables
(`SchemaConverter.convert_swagger_to_definition`,
`_schema_name_to_table_name`, `_convert_schema_to_table`,
`_determine_primary_key`, `HebrewEnglishFieldMapper.get_english_name`)

Entries whose declared `type` is not `"object"` are skipped with
`continue`; each remaining entry is converted and assigned into the
`tables` dict under its derived table name (a later entry with the same
derived name overwrites an earlier one, dict-style). -/

/-- One entry of the external schema's `components/schemas` section. -/
structure SchemaEntry where
  type : Option String
  properties : List (String × SwaggerProperty)
  required : List String
deriving DecidableEq

/-- Python `_schema_name_to_table_name`'s `name_mapping` dictionary. -/
def name_mapping : List (String × String) :=
  [("User", "users"), ("Account", "accounts"), ("CreditCard", "credit_cards"),
   ("Transaction", "transactions"), ("Customer", "customers"),
   ("Product", "products"), ("Order", "orders")]

/-- Python `_schema_name_to_table_name`: known names via the lookup table,
unknown names lower-cased and suffix-pluralized. -/
def schema_name_to_table_name (n : String) : String :=
  (name_mapping.lookup n).getD (lowerStr n ++ "s")

/-- Python `HebrewEnglishFieldMapper.hebrew_to_english`. -/
def hebrew_to_english : List (String × String) :=
  [("תעודת_זהות", "israeli_id"), ("שם_פרטי", "first_name"),
   ("שם_משפחה", "last_name"), ("כתובת", "address"), ("עיר", "city"),
   ("טלפון", "phone"), ("דואר_אלקטרוני", "email"),
   ("תאריך_יצירה", "created_at"), ("תאריך_לידה", "birth_date"),
   ("מספר_חשבון", "account_number"), ("מספר_כרטיס", "card_number"),
   ("סוג_חשבון", "account_type"), ("סוג_כרטיס", "card_type"),
   ("יתרה", "balance"), ("מסגרת_אשראי", "credit_limit"),
   ("אשראי_זמין", "available_credit"), ("תשלומים_אחרונים", "last_payments"),
   ("דירוג_אשראי", "credit_score"), ("תוקף", "expiry_date"),
   ("תאריך_פתיחה", "opening_date"), ("תאריך_הנפקה", "issue_date"),
   ("סניף_בנק", "bank_branch"), ("תאריך_עסקה", "transaction_date"),
   ("סכום", "amount"), ("קטגוריה", "category"), ("שם_עסק", "merchant_name"),
   ("סוג_עסקה", "transaction_type"), ("מספר_תשלומים", "installments"),
   ("תיאור", "description"), ("סטטוס", "status")]

/-- Python `get_english_name`: dictionary hit or the name unchanged. -/
def convert_hebrew_to_english (n : String) : String :=
  (hebrew_to_english.lookup n).getD n

/-- Python `_determine_primary_key`'s `pk_candidates` priority list. -/
def pk_candidates : List String :=
  ["תעודת_זהות", "id", "uuid", "מספר_כרטיס", "מספר_חשבון",
   "customer_id", "user_id", "account_number", "card_number"]

/-- Python `_determine_primary_key`: first priority-list hit among the property
names, else the first property name, else none. -/
def determine_primary_key (properties : List (String × SwaggerProperty)) :
    Option String :=
  match pk_candidates.find? (fun c => properties.any (fun p => p.1 == c)) with
  | some c => some c
  | none => (properties.head?).map (fun p => p.1)

/-- A converted table definition (display metadata omitted). -/
structure TableDef where
  source_schema : String
  primary_key : Option String
  fields : List (String × FieldDef)
deriving DecidableEq

/-- Python `_convert_schema_to_table`: infer the primary key and convert every
property under its English name. -/
def convert_schema_to_table (schema_name : String) (entry : SchemaEntry) : TableDef :=
  { source_schema := schema_name
    primary_key := determine_primary_key entry.properties
    fields := entry.properties.map (fun p =>
      (convert_hebrew_to_english p.1,
        convert_property_to_field (convert_hebrew_to_english p.1) p.2
          (entry.required.contains p.1))) }

/-- Python dict assignment `d[k] = v`: replace in place if the key
exists, else append. -/
def dictInsert {α : Type} (k : String) (v : α) (d : List (String × α)) :
    List (String × α) :=
  if d.any (fun p => p.1 == k) then
    d.map (fun p => if p.1 == k then (k, v) else p)
  else d ++ [(k, v)]

/-- One iteration of the `for schema_name, schema_def in schemas.items()`
loop of `convert_swagger_to_definition`: `continue` on a non-object
entry, otherwise convert and assign into the `tables` dict. -/
def convertStep (tables : List (String × TableDef)) (p : String × SchemaEntry) :
    List (String × TableDef) :=
  if p.2.type ≠ some "object" then tables
  else dictInsert (schema_name_to_table_name p.1)
    (convert_schema_to_table p.1 p.2) tables

/-- The `tables` dict built by `convert_swagger_to_definition`. -/
def convert_swagger_tables (schemas : List (String × SchemaEntry)) :
    List (String × TableDef) :=
  schemas.foldl convertStep []

/-- The table names derived from the object-typed entries, in order. -/
def objectTableNames (schemas : List (String × SchemaEntry)) : List String :=
  (schemas.filter (fun p => p.2.type == some "object")).map
    (fun p => schema_name_to_table_name p.1)

theorem anyKey_iff {α : Type} (d : List (String × α)) (k : String) :
    d.any (fun p => p.1 == k) = true ↔ k ∈ d.map (fun p => p.1) := by
  simp only [List.any_eq_true, List.mem_map, beq_iff_eq]

theorem dictInsert_keys {α : Type} (k : String) (v : α) (d : List (String × α)) :
    (dictInsert k v d).map (fun p => p.1)
      = if d.any (fun p => p.1 == k) then d.map (fun p => p.1)
        else d.map (fun p => p.1) ++ [k] := by
  unfold dictInsert
  split_ifs with h
  · rw [List.map_map]
    refine List.map_congr_left ?_
    intro p _
    simp only [Function.comp]
    split_ifs with hp
    · exact (eq_of_beq hp).symm
    · rfl
  · simp

theorem mem_keys_dictInsert {α : Type} (k a : String) (v : α) (d : List (String × α)) :
    a ∈ (dictInsert k v d).map (fun p => p.1)
      ↔ a ∈ d.map (fun p => p.1) ∨ a = k := by
  rw [dictInsert_keys]
  split_ifs with h
  · rw [anyKey_iff] at h
    constructor
    · exact Or.inl
    · rintro (ha | rfl)
      · exact ha
      · exact h
  · simp

theorem nodup_keys_dictInsert {α : Type} (k : String) (v : α) (d : List (String × α))
    (hd : (d.map (fun p => p.1)).Nodup) :
    ((dictInsert k v d).map (fun p => p.1)).Nodup := by
  rw [dictInsert_keys]
  split_ifs with h
  · exact hd
  · have hk : k ∉ d.map (fun p => p.1) := fun hm => by
      rw [← anyKey_iff] at hm
      exact absurd hm (by simp [h])
    simp [List.nodup_append, hd, hk]

theorem convert_fold_mem (schemas : List (String × SchemaEntry)) :
    ∀ (acc : List (String × TableDef)) (a : String),
      a ∈ (schemas.foldl convertStep acc).map (fun p => p.1)
        ↔ a ∈ acc.map (fun p => p.1) ∨ a ∈ objectTableNames schemas := by
  induction schemas with
  | nil => intro acc a; simp [objectTableNames]
  | cons p rest ih =>
      intro acc a
      simp only [List.foldl_cons]
      by_cases hobj : p.2.type = some "object"
      · have hstep : convertStep acc p
            = dictInsert (schema_name_to_table_name p.1)
                (convert_schema_to_table p.1 p.2) acc := by
          unfold convertStep
          simp [hobj]
        rw [hstep, ih, mem_keys_dictInsert]
        have hnames : objectTableNames (p :: rest)
            = schema_name_to_table_name p.1 :: objectTableNames rest := by
          unfold objectTableNames
          simp [List.filter_cons, hobj]
        rw [hnames]
        simp only [List.mem_cons]
        tauto
      · have hstep : convertStep acc p = acc := by
          unfold convertStep
          simp [hobj]
        have hnames : objectTableNames (p :: rest) = objectTableNames rest := by
          unfold objectTableNames
          simp [List.filter_cons, hobj]
        rw [hstep, ih, hnames]

theorem convert_fold_nodup (schemas : List (String × SchemaEntry)) :
    ∀ (acc : List (String × TableDef)),
      (acc.map (fun p => p.1)).Nodup →
      ((schemas.foldl convertStep acc).map (fun p => p.1)).Nodup := by
  induction schemas with
  | nil => intro acc h; simpa using h
  | cons p rest ih =>
      intro acc h
      simp only [List.foldl_cons]
      by_cases hobj : p.2.type = some "object"
      · have hstep : convertStep acc p
            = dictInsert (schema_name_to_table_name p.1)
                (convert_schema_to_table p.1 p.2) acc := by
          unfold convertStep
          simp [hobj]
        rw [hstep]
        exact ih _ (nodup_keys_dictInsert _ _ _ h)
      · have hstep : convertStep acc p = acc := by
          unfold convertStep
          simp [hobj]
        rw [hstep]
        exact ih _ h

theorem convert_fold_keys (schemas : List (String × SchemaEntry)) :
    ∀ (acc : List (String × TableDef)),
      (∀ a ∈ acc.map (fun p => p.1), a ∉ objectTableNames schemas) →
      (objectTableNames schemas).Nodup →
      (schemas.foldl convertStep acc).map (fun p => p.1)
        = acc.map (fun p => p.1) ++ objectTableNames schemas := by
  induction schemas with
  | nil => intro acc _ _; simp [objectTableNames]
  | cons p rest ih =>
      intro acc hdisj hnd
      simp only [List.foldl_cons]
      by_cases hobj : p.2.type = some "object"
      · have hnames : objectTableNames (p :: rest)
            = schema_name_to_table_name p.1 :: objectTableNames rest := by
          unfold objectTableNames
          simp [List.filter_cons, hobj]
        rw [hnames] at hdisj hnd ⊢
        have hknotin : schema_name_to_table_name p.1 ∉ acc.map (fun q => q.1) :=
          fun hm => hdisj _ hm (List.mem_cons_self _ _)
        have hstep : convertStep acc p
            = dictInsert (schema_name_to_table_name p.1)
                (convert_schema_to_table p.1 p.2) acc := by
          unfold convertStep
          simp [hobj]
        have hins : (dictInsert (schema_name_to_table_name p.1)
              (convert_schema_to_table p.1 p.2) acc).map (fun q => q.1)
            = acc.map (fun q => q.1) ++ [schema_name_to_table_name p.1] := by
          rw [dictInsert_keys]
          have : ¬(acc.any (fun q => q.1 == schema_name_to_table_name p.1) = true) :=
            fun hm => hknotin ((anyKey_iff _ _).mp hm)
          simp [this]
        rw [hstep, ih _ ?_ (List.Nodup.of_cons hnd), hins, List.append_assoc]
        · rfl
        · intro a ha
          rw [hins] at ha
          rcases List.mem_append.mp ha with h1 | h2
          · exact fun hmem => hdisj a h1 (List.mem_cons_of_mem _ hmem)
          · have : a = schema_name_to_table_name p.1 := by simpa using h2
            subst this
            exact (List.nodup_cons.mp hnd).1
      · have hnames : objectTableNames (p :: rest) = objectTableNames rest := by
          unfold objectTableNames
          simp [List.filter_cons, hobj]
        rw [hnames] at hdisj hnd ⊢
        have hstep : convertStep acc p = acc := by
          unfold convertStep
          simp [hobj]
        rw [hstep]
        exact ih _ hdisj hnd

/-- An object-typed schema entry with no properties. -/
def objEntryExample : SchemaEntry :=
  { type := some "object", properties := [], required := [] }

/-- An array-typed schema entry. -/
def arrayEntryExample : SchemaEntry :=
  { type := some "array", properties := [], required := [] }

/-- C10 counterexample: the two object-typed entries `User` and `user`
derive the same table name `users`, so the Definition ends up with ONE
table for TWO object-typed entries. -/
theorem convert_tables_collision_counterexample :
    (convert_swagger_tables
        [("User", objEntryExample), ("user", objEntryExample)]).length = 1 ∧
    (([("User", objEntryExample), ("user", objEntryExample)]
        : List (String × SchemaEntry)).filter
          (fun p => p.2.type == some "object")).length = 2 := by
  refine ⟨by decide, by decide⟩

/-- C10 amended: non-object entries are silently skipped (never a
failure), and the resulting tables' names are exactly the table names
derived from the object-typed entries; when those derived names are
pairwise distinct there is exactly one table per object-typed entry
(colliding derived names merge, last entry winning). -/
theorem convert_swagger_tables_spec (schemas : List (String × SchemaEntry)) :
    ((convert_swagger_tables schemas).map (fun p => p.1)).Nodup ∧
    (∀ a, a ∈ (convert_swagger_tables schemas).map (fun p => p.1)
        ↔ a ∈ objectTableNames schemas) ∧
    ((objectTableNames schemas).Nodup →
        (convert_swagger_tables schemas).map (fun p => p.1)
          = objectTableNames schemas) ∧
    ((objectTableNames schemas).Nodup →
        (convert_swagger_tables schemas).length
          = (schemas.filter (fun p => p.2.type == some "object")).length) := by
  refine ⟨convert_fold_nodup schemas [] (by simp), ?_, ?_, ?_⟩
  · intro a
    have h := convert_fold_mem schemas [] a
    simpa [convert_swagger_tables] using h
  · intro hnd
    have h := convert_fold_keys schemas [] (by simp) hnd
    simpa [convert_swagger_tables] using h
  · intro hnd
    have h := convert_fold_keys schemas [] (by simp) hnd
    have hlen : (convert_swagger_tables schemas).length
        = ((convert_swagger_tables schemas).map (fun p => p.1)).length := by
      simp
    rw [hlen]
    unfold convert_swagger_tables
    rw [h]
    unfold objectTableNames
    simp

/-- Witness for `convert_swagger_tables_spec`: two object entries with
distinct derived names and an array entry yield exactly the two tables
`users` and `products`. -/
theorem convert_swagger_tables_spec_witness :
    (convert_swagger_tables [("User", objEntryExample), ("Tag", arrayEntryExample),
        ("Product", objEntryExample)]).map (fun p => p.1) = ["users", "products"] ∧
    (convert_swagger_tables [("User", objEntryExample), ("Tag", arrayEntryExample),
        ("Product", objEntryExample)]).length = 2 := by
  have h := convert_swagger_tables_spec
    [("User", objEntryExample), ("Tag", arrayEntryExample),
      ("Product", objEntryExample)]
  refine ⟨(h.2.2.1 (by decide)).trans (by decide), (h.2.2.2 (by decide)).trans (by decide)⟩

end SynthData
